import Mathlib

/-!
Verification of the template-driven file extraction engine
(`server/src/services/file-parser.ts`) and the export adapter
(`file-processor`, quoted in `replit.md`).

The TypeScript code is shallowly embedded: JS runtime values are the
inductive `JsValue`, thrown exceptions are `Except.error`, mutation of
the per-call accumulator arrays is explicit state threading.  Two
behaviours that live in external libraries are abstracted as function
parameters: `dp` stands for JavaScript date parsing (`new Date(v)`
followed by `toISOString`), `rx` stands for case-insensitive
`RegExp`/`String.prototype.match` (returning the first capture group).
All theorems quantify over these parameters, so nothing proved depends
on a particular date or regex semantics.
-/

/-- JavaScript runtime values that can occur as cell / record contents
in this code base: `undefined`, `null`, strings, numbers (modelled as
rationals; the code never relies on float rounding) and booleans. -/
inductive JsValue : Type where
  | undef : JsValue
  | null : JsValue
  | str : String → JsValue
  | num : ℚ → JsValue
  | bool : Bool → JsValue
deriving DecidableEq

/-- JS truthiness: `undefined`, `null`, `""`, `0` and `false` are falsy. -/
def truthyJs : JsValue → Bool
  | .undef => false
  | .null => false
  | .str s => s ≠ ""
  | .num q => q ≠ 0
  | .bool b => b

/-- The JS `a || b` operator. -/
def jsOr (a b : JsValue) : JsValue :=
  if truthyJs a then a else b

/-- An apostrophe; used to build the error-message literals of the
source without writing the character inline. -/
def apos : String := String.singleton (Char.ofNat 39)

/-- `String(v)` for the values we model.  Integers print exactly as in
JS; non-integral rationals are printed as `num/den` (JS float
formatting is not modelled — no claim depends on it), `null`,
`undefined` and booleans use their JS spellings. -/
def jsToString : JsValue → String
  | .undef => "undefined"
  | .null => "null"
  | .str s => s
  | .num q => if q.den = 1 then
      (if q.num < 0 then "-" ++ toString q.num.natAbs else toString q.num.natAbs)
    else toString q.num ++ "/" ++ toString q.den
  | .bool b => if b then "true" else "false"

/-- Whitespace stripped by JS `ToNumber` (space, tab, newline, CR). -/
def jsWhitespace (c : Char) : Bool :=
  c = Char.ofNat 32 || c = Char.ofNat 9 || c = Char.ofNat 10 || c = Char.ofNat 13

/-- Strip leading and trailing whitespace from a character list. -/
def trimChars (l : List Char) : List Char :=
  ((l.dropWhile jsWhitespace).reverse.dropWhile jsWhitespace).reverse

/-- Digit accumulator: `"123"` ↦ `123`. -/
def digitsToNat (ds : List Char) : ℕ :=
  ds.foldl (fun a c => a * 10 + (c.toNat - 48)) 0

/-- `Number(s)` for a string `s`, restricted to the decimal fragment of
the JS numeric grammar (optional sign, digits, one optional decimal
point; hex/exponent/`Infinity` forms are omitted — no claim exercises
them).  `none` models `NaN`; the empty / all-whitespace string parses
to `0` exactly as in JS. -/
def parseJsNumber (s : String) : Option ℚ :=
  let l := trimChars s.data
  if l.isEmpty then some 0 else
  let signed : Bool × List Char :=
    match l with
    | '-' :: rest => (true, rest)
    | '+' :: rest => (false, rest)
    | _ => (false, l)
  let ip := signed.2.takeWhile Char.isDigit
  let r1 := signed.2.dropWhile Char.isDigit
  let mag : Option ℚ :=
    match r1 with
    | [] => if ip.isEmpty then none else some (digitsToNat ip : ℚ)
    | '.' :: r2 =>
      let fp := r2.takeWhile Char.isDigit
      let r3 := r2.dropWhile Char.isDigit
      if ¬ r3.isEmpty then none
      else if ip.isEmpty ∧ fp.isEmpty then none
      else some ((digitsToNat ip : ℚ) + (digitsToNat fp : ℚ) / (10 : ℚ) ^ fp.length)
    | _ => none
  mag.map (fun q => if signed.1 then -q else q)

/-- `Number(v)`: numbers are themselves, strings are parsed, booleans
become `0`/`1`, `null` becomes `0`, `undefined` is `NaN` (`none`). -/
def jsNumber : JsValue → Option ℚ
  | .num q => some q
  | .str s => parseJsNumber s
  | .bool b => some (if b then 1 else 0)
  | .null => some 0
  | .undef => none

/-- The `dataType` field of a template column. -/
inductive DataType : Type where
  | string : DataType
  | number : DataType
  | date : DataType
deriving DecidableEq

/-- The document kinds distinguished by the parser and the engine. -/
inductive FileType : Type where
  | excel : FileType
  | csv : FileType
  | pdf : FileType
deriving DecidableEq

/-- A parsed data row: either a position-indexed cell array (Excel) or
a header-keyed record (CSV; also the single `{content: …}` row of the
PDF path). -/
inductive Row : Type where
  | cells : List JsValue → Row
  | record : List (String × JsValue) → Row
deriving DecidableEq

/-- Canonical array index denoted by a string key, if any: JS arrays
treat the key `"7"` (no leading zeros, all digits) as index 7.
Non-index properties (e.g. `"length"`) are not modelled and read as
`undefined`. -/
def canonicalNatKey (s : String) : Option ℕ :=
  match s.data with
  | [] => none
  | c :: rest =>
    if (c :: rest).all Char.isDigit ∧ (c = '0' → rest = []) then
      some (digitsToNat (c :: rest))
    else none

/-- `row[i]` for an integer index `i` (JS: out-of-range and negative
indices give `undefined`; on an object the index is stringified and
looked up as a property key). -/
def rowIndexNum (r : Row) (idx : ℤ) : JsValue :=
  match r with
  | .cells cs => if idx < 0 then .undef else ((cs.get? idx.toNat).getD .undef)
  | .record fs => ((fs.lookup (toString idx)).getD .undef)

/-- `row[k]` for a string key `k` (JS: absent keys give `undefined`;
on an array a canonical numeric key indexes the elements). -/
def rowIndexStr (r : Row) (k : String) : JsValue :=
  match r with
  | .record fs => ((fs.lookup k).getD .undef)
  | .cells cs =>
    match canonicalNatKey k with
    | some n => ((cs.get? n).getD .undef)
    | none => (.undef)

/-- `obj[k] = v` on a JS object modelled as an ordered association
list: an existing key keeps its position and is overwritten, a new key
is appended. -/
def setField (r : List (String × JsValue)) (k : String) (v : JsValue) :
    List (String × JsValue) :=
  match r with
  | [] => [(k, v)]
  | (k', v') :: rest =>
    if k' = k then (k, v) :: rest else (k', v') :: setField rest k v

/-- `ParsedFileData.metadata` of the source. -/
structure FileMetadata : Type where
  totalRows : ℕ
  type : FileType
  sheetName : Option String
  filename : String
deriving DecidableEq

/-- `ParsedFileData` of the source.  `headers` is `jsonData[0]` on the
Excel path and may be absent (`undefined`) for an empty grid, hence the
`Option`. -/
structure ParsedFileData : Type where
  headers : Option (List JsValue)
  rows : List Row
  metadata : FileMetadata
deriving DecidableEq

/-- A template column (`TemplateMappingData.columns[i]`). -/
structure ColumnMapping : Type where
  name : String
  sourceColumn : String
  required : Bool
  dataType : DataType
deriving DecidableEq

/-- `TemplateMappingData.pdfSettings`. -/
structure PdfSettings : Type where
  patterns : List (String × String)
deriving DecidableEq

/-- `TemplateMappingData` of the source. -/
structure TemplateMappingData : Type where
  fileType : FileType
  skipRows : ℕ
  columns : List ColumnMapping
  pdfSettings : Option PdfSettings
deriving DecidableEq

/-- One entry of the `errors` array (`{row, message}`). -/
structure RowError : Type where
  row : ℕ
  message : String
deriving DecidableEq

/-- `MappingResult` of the source.  `totalRows` is
`sourceData.length - skipRows`, a plain JS subtraction that can go
negative, hence `ℤ`. -/
structure MappingResult : Type where
  headers : List String
  rows : List (List (String × JsValue))
  totalRows : ℤ
  mappedRows : ℕ
  errorRows : ℕ
  errors : List RowError
deriving DecidableEq

/-- Message of the `Error` thrown by `convertDataType` for an invalid
number. -/
def msgNotNumber (v : JsValue) : String :=
  apos ++ jsToString v ++ apos ++ "은(는) 유효한 숫자가 아닙니다."

/-- Message of the `Error` thrown by `convertDataType` for an invalid
date. -/
def msgNotDate (v : JsValue) : String :=
  apos ++ jsToString v ++ apos ++ "은(는) 유효한 날짜가 아닙니다."

/-- `FileParser.convertDataType`.  `dp` abstracts
`new Date(v).toISOString()`: `some iso` when the date is valid.
A thrown `Error` is `Except.error` carrying the message. -/
def convertDataType (dp : JsValue → Option String) (value : JsValue)
    (dataType : DataType) : Except String JsValue :=
  match value with
  | .null => .ok .null
  | .undef => .ok .null
  | v =>
    match dataType with
    | .number =>
      match jsNumber v with
      | some q => .ok (.num q)
      | none => .error (msgNotNumber v)
    | .date =>
      match dp v with
      | some iso => .ok (.str iso)
      | none => .error (msgNotDate v)
    | .string => .ok (.str (jsToString v))

/-- `FileParser.excelColToIndex`: fold `result = result*26 +
charCode - 64` over the letters, then subtract 1.  Computed in `ℤ`
because JS subtraction can go below zero (e.g. the empty string gives
`-1`). -/
def excelColToIndex (col : String) : ℤ :=
  (col.data.foldl (fun r c => r * 26 + ((c.toNat : ℤ) - 64)) 0) - 1

/-- Message pushed for a missing required field (tabular path). -/
def msgRequired (name : String) : String :=
  "필수 필드 " ++ apos ++ name ++ apos ++ "의 값이 없습니다."

/-- Message pushed when `convertDataType` throws (tabular path):
the field name plus the thrown message. -/
def msgConvert (name : String) (m : String) : String :=
  "필드 " ++ apos ++ name ++ apos ++ "의 데이터 타입 변환 오류: " ++ m

/-- Message pushed on the PDF path when a required field has no
pattern. -/
def msgPatternUndefined (name : String) : String :=
  "필수 필드 " ++ apos ++ name ++ apos ++ "의 패턴이 정의되지 않았습니다."

/-- Message pushed on the PDF path when a required field's pattern
does not match. -/
def msgValueNotFound (name : String) : String :=
  "필수 필드 " ++ apos ++ name ++ apos ++ "의 값을 찾을 수 없습니다."

/-- State of the inner (per-column) loop of `applyTemplate`: the row
object being built, the errors pushed so far for this row, and the
`hasError` flag.  The source pushes onto one shared `errors` array;
threading a per-row list that the outer loop appends produces the same
final array because pushes happen in the same order. -/
structure RowAcc : Type where
  mappedRow : List (String × JsValue)
  errors : List RowError
  hasError : Bool
deriving DecidableEq

/-- The source value the tabular path resolves for one column mapping:
Excel indexes the row by the converted column letter, every other file
type looks the column name up in the row record with `|| null`
appended. -/
def mappingValue (fdType : FileType) (sourceRow : Row)
    (mapping : ColumnMapping) : JsValue :=
  if fdType = .excel then
    rowIndexNum sourceRow (excelColToIndex mapping.sourceColumn)
  else
    jsOr (rowIndexStr sourceRow mapping.sourceColumn) .null

/-- One iteration of the inner `for (const mapping of columnMappings)`
loop of `applyTemplate` (tabular path), for source row `sourceRow` at
zero-based index `i`. -/
def processMapping (dp : JsValue → Option String) (fdType : FileType)
    (i : ℕ) (sourceRow : Row) (acc : RowAcc) (mapping : ColumnMapping) :
    RowAcc :=
  let value : JsValue := mappingValue fdType sourceRow mapping
  let acc :=
    if mapping.required ∧ (value = .null ∨ value = .undef) then
      { acc with errors := acc.errors ++ [⟨i + 1, msgRequired mapping.name⟩],
                 hasError := true }
    else acc
  match convertDataType dp value mapping.dataType with
  | .ok cv => { acc with mappedRow := setField acc.mappedRow mapping.name cv }
  | .error m =>
    { acc with errors := acc.errors ++ [⟨i + 1, msgConvert mapping.name m⟩],
               hasError := true }

/-- The whole inner loop for one source row: fold `processMapping` over
the template columns starting from an empty row object, no errors and
`hasError = false`. -/
def processRow (dp : JsValue → Option String) (fdType : FileType)
    (cols : List ColumnMapping) (i : ℕ) (sourceRow : Row) : RowAcc :=
  cols.foldl (processMapping dp fdType i sourceRow) ⟨[], [], false⟩

/-- Rows paired with their zero-based index, starting at `n`. -/
def enumRows : ℕ → List Row → List (ℕ × Row)
  | _, [] => []
  | n, r :: rs => (n, r) :: enumRows (n + 1) rs

/-- The Excel/CSV branch of `FileParser.applyTemplate`: iterate the
source rows from index `skipRows`, collect each row into `mappedRows`
only when its `hasError` flag stayed false, and append all pushed
errors. -/
def applyTabular (dp : JsValue → Option String) (fileData : ParsedFileData)
    (template : TemplateMappingData) : MappingResult :=
  let sourceData := fileData.rows
  let skipRows := template.skipRows
  let resultHeaders := template.columns.map (fun col => col.name)
  let st :=
    ((enumRows 0 sourceData).drop skipRows).foldl
      (fun (st : List (List (String × JsValue)) × List RowError) p =>
        let a := processRow dp fileData.metadata.type template.columns p.1 p.2
        (if a.hasError then st.1 else st.1 ++ [a.mappedRow], st.2 ++ a.errors))
      ([], [])
  { headers := resultHeaders
    rows := st.1
    totalRows := (sourceData.length : ℤ) - (skipRows : ℤ)
    mappedRows := st.1.length
    errorRows := st.2.length
    errors := st.2 }

/-- One iteration of the `for (const mapping of template.columns)` loop
of `applyPdfTemplate`.  `rx pat text` abstracts
`text.match(new RegExp(pat, 'i'))`: `none` is no match, `some g1` is a
match whose first capture group is `g1` (`none` when the group did not
participate).  The `convertDataType` call is NOT wrapped in
`try`/`catch` in the source, so its error propagates (`Except.error`).
A non-string `pdfContent` would make `pdfContent.match` throw a
`TypeError` in JS; that is the last branch. -/
def pdfStep (dp : JsValue → Option String)
    (rx : String → String → Option (Option String))
    (template : TemplateMappingData) (pdfContent : JsValue)
    (acc : List (String × JsValue) × List RowError) (mapping : ColumnMapping) :
    Except String (List (String × JsValue) × List RowError) :=
  let pattern : Option String :=
    match template.pdfSettings with
    | some s => s.patterns.lookup mapping.name
    | none => none
  if (pattern.getD "") = "" then
    if mapping.required then
      .ok (acc.1, acc.2 ++ [⟨1, msgPatternUndefined mapping.name⟩])
    else .ok acc
  else
    match pdfContent with
    | .str text =>
      match rx (pattern.getD "") text with
      | some (some g1) =>
        if g1 ≠ "" then
          match convertDataType dp (.str g1) mapping.dataType with
          | .ok cv => .ok (setField acc.1 mapping.name cv, acc.2)
          | .error m => .error m
        else if mapping.required then
          .ok (acc.1, acc.2 ++ [⟨1, msgValueNotFound mapping.name⟩])
        else .ok acc
      | _ =>
        if mapping.required then
          .ok (acc.1, acc.2 ++ [⟨1, msgValueNotFound mapping.name⟩])
        else .ok acc
    | _ => .error "pdfContent.match is not a function"

/-- `FileParser.applyPdfTemplate`: extract `rows[0]?.content || ''`,
run the per-column loop (which can throw, propagated here), then gate
the single synthetic row on whether any error was pushed
(`hasErrors = errors.length > 0`). -/
def applyPdfTemplate (dp : JsValue → Option String)
    (rx : String → String → Option (Option String))
    (fileData : ParsedFileData) (template : TemplateMappingData) :
    Except String MappingResult :=
  match template.columns.foldlM
      (pdfStep dp rx template
        (jsOr (rowIndexStr (fileData.rows.headD (.record [])) "content") (.str "")))
      ([], []) with
  | .error e => .error e
  | .ok st =>
    .ok { headers := template.columns.map (fun col => col.name)
          rows := if st.2.length > 0 then [] else [st.1]
          totalRows := 1
          mappedRows := if st.2.length > 0 then 0 else 1
          errorRows := st.2.length
          errors := st.2 }

/-- `FileParser.applyTemplate`: dispatch to the PDF branch only when
both the template and the document say `pdf`, otherwise run the
tabular branch.  The surrounding `try`/`catch` re-throws any escaped
error with the `템플릿 적용 오류: ` prefix; the tabular branch never
throws. -/
def applyTemplate (dp : JsValue → Option String)
    (rx : String → String → Option (Option String))
    (fileData : ParsedFileData) (template : TemplateMappingData) :
    Except String MappingResult :=
  if template.fileType = .pdf ∧ fileData.metadata.type = .pdf then
    match applyPdfTemplate dp rx fileData template with
    | .ok r => .ok r
    | .error e => .error ("템플릿 적용 오류: " ++ e)
  else
    .ok (applyTabular dp fileData template)

/-- `FileParser.parseExcel`, modelled from the point where the `xlsx`
library has produced the workbook: `sheets` is the ordered list of
(name, 2-D cell grid) pairs, the code reads `SheetNames[0]` only,
takes `jsonData[0]` as `headers` and `jsonData.slice(1)` as `rows`. -/
def parseExcelFile (sheets : List (String × List (List JsValue)))
    (filename : String) : ParsedFileData :=
  let first := sheets.headD ("", [])
  let jsonData := first.2
  let rows := (jsonData.drop 1).map Row.cells
  { headers := jsonData.head?
    rows := rows
    metadata :=
      { totalRows := rows.length
        type := .excel
        sheetName := some first.1
        filename := filename } }

/-- The header row `XLSX.utils.json_to_sheet` derives from a record
list: the union of the records' keys in order of first appearance.
Modelled from the documented behaviour of the `xlsx` library used by
`exportToExcel`/`exportToCsv` (quoted in `replit.md`); the library has
no repository source. -/
def sheetHeaders (data : List (List (String × JsValue))) : List String :=
  data.foldl
    (fun hs r =>
      r.foldl (fun hs kv => if hs.contains kv.1 then hs else hs ++ [kv.1]) hs)
    []

/-- A worksheet as produced by `XLSX.utils.json_to_sheet`: the derived
header row plus one cell row per record (a cell is absent when the
record lacks the key).  An empty record list yields an empty sheet —
the library has no key information to build a header from. -/
structure Sheet : Type where
  header : List String
  dataRows : List (List (Option JsValue))
deriving DecidableEq

/-- `XLSX.utils.json_to_sheet`, modelled from the library's documented
behaviour on a list of flat records. -/
def jsonToSheet (data : List (List (String × JsValue))) : Sheet :=
  { header := sheetHeaders data
    dataRows := data.map (fun r => (sheetHeaders data).map (fun k => r.lookup k)) }

/-- A workbook (`XLSX.utils.book_new` plus appended sheets). -/
structure Workbook : Type where
  sheets : List (String × Sheet)
deriving DecidableEq

/-- Rendering of one cell when the sheet is written as CSV: absent and
null cells print empty, everything else prints via `String(v)`. -/
def cellStr (c : Option JsValue) : String :=
  match c with
  | none => ""
  | some .null => ""
  | some .undef => ""
  | some v => jsToString v

/-- The lines of the CSV serialization of a sheet (`XLSX.writeFile`
with `bookType: 'csv'`): the header line followed by one line per data
row; an empty sheet serializes to an empty file.  Each line is kept as
its list of cell texts (comma joining/quoting is irrelevant to the
claims). -/
def csvLines (s : Sheet) : List (List String) :=
  if s.header = [] ∧ s.dataRows = [] then []
  else s.header :: s.dataRows.map (fun r => r.map cellStr)

/-- `exportToExcel` of `file-processor` (quoted in `replit.md`):
create a workbook, append the single sheet `"견적서 데이터"` built from
the records, write it.  The returned value is the written workbook. -/
def exportToExcel (data : List (List (String × JsValue))) : Workbook :=
  { sheets := [("견적서 데이터", jsonToSheet data)] }

/-- `exportToCsv` of `file-processor` (quoted in `replit.md`): build
the same single-sheet workbook and write it with `bookType: 'csv'`,
which serializes the first sheet.  The returned value is the list of
written CSV lines. -/
def exportToCsv (data : List (List (String × JsValue))) : List (List String) :=
  csvLines (jsonToSheet data)

/-- `sub` occurs contiguously inside `hay`. -/
def strContains (hay sub : String) : Prop :=
  sub.data <:+: hay.data

instance (hay sub : String) : Decidable (strContains hay sub) := by
  unfold strContains; infer_instance

/-- The Korean noun `convertDataType` uses for each target type inside
its failure messages (`숫자` = number, `날짜` = date; `string`
conversions never fail). -/
def koreanTypeName : DataType → String
  | .number => "숫자"
  | .date => "날짜"
  | .string => "문자열"

/-- A non-empty string of uppercase letters `A`–`Z`: the domain on
which the claim states `excelColToIndex` is a bijection. -/
def validCol (s : String) : Prop :=
  s.data ≠ [] ∧ ∀ c ∈ s.data, 65 ≤ c.toNat ∧ c.toNat ≤ 90

instance (s : String) : Decidable (validCol s) := by
  unfold validCol; infer_instance

/-- Strict lexicographic order on character lists (by code point). -/
def lexLt : List Char → List Char → Prop
  | [], [] => False
  | _ :: _, [] => False
  | [], _ :: _ => True
  | a :: as, b :: bs => a.toNat < b.toNat ∨ (a = b ∧ lexLt as bs)

instance instDecLexLt : ∀ (l m : List Char), Decidable (lexLt l m)
  | [], [] => isFalse id
  | _ :: _, [] => isFalse id
  | [], _ :: _ => isTrue trivial
  | _ :: as, _ :: bs =>
    have := instDecLexLt as bs
    inferInstanceAs (Decidable (_ ∨ _))

/-- Excel column order: shorter strings first, alphabetical within a
length. -/
def colOrder (s t : String) : Prop :=
  s.data.length < t.data.length ∨
    (s.data.length = t.data.length ∧ lexLt s.data t.data)

/-- The value of a letter string in bijective base 26 over ℕ
(`A=1, …, Z=26, AA=27, …`); `excelColToIndex` is this minus one. -/
def colVal (l : List Char) : ℕ :=
  l.foldl (fun r c => r * 26 + (c.toNat - 64)) 0

/-- `1 + 26 + 26² + ⋯ + 26^(k-1)`: the smallest `colVal` of a valid
string of length `k`. -/
def colLo : ℕ → ℕ
  | 0 => 0
  | k + 1 => 26 * colLo k + 1

/-- Inverse of `colVal` on positive naturals: the bijective base-26
numeral of `m` (empty for `0`). -/
def colRep (m : ℕ) : List Char :=
  if m = 0 then []
  else if h : m ≤ 26 then [Char.ofNat (64 + m)]
  else colRep ((m - 1) / 26) ++ [Char.ofNat (64 + ((m - 1) % 26 + 1))]
decreasing_by
  exact Nat.lt_of_le_of_lt (Nat.div_le_self _ _) (Nat.sub_lt (Nat.pos_of_ne_zero (by assumption)) Nat.one_pos)

/-- A fixed trivial date parser used by the concrete witness inputs:
no value is a valid date. -/
def dp0 : JsValue → Option String := fun _ => none

/-- A fixed trivial regex engine used by the concrete witness inputs:
no pattern matches. -/
def rx0 : String → String → Option (Option String) := fun _ _ => none

/-- Concrete regex engine for the PDF coercion-failure scenario: the
pattern `Total:\s*(\S+)` matched case-insensitively against
`Total: abc` captures `abc`, as the JS engine would. -/
def rxC3 : String → String → Option (Option String) := fun p t =>
  if p = "Total:\\s*(\\S+)" ∧ t = "Total: abc" then some (some "abc") else none

/-- Witness document: one CSV record `{a: "x"}`. -/
def fdW : ParsedFileData :=
  { headers := some [JsValue.str "a"]
    rows := [Row.record [("a", JsValue.str "x")]]
    metadata := { totalRows := 1, type := .csv, sheetName := none, filename := "w.csv" } }

/-- Witness template: one required string field read from column `a`. -/
def tW : TemplateMappingData :=
  { fileType := .csv, skipRows := 0
    columns := [{ name := "f", sourceColumn := "a", required := true, dataType := .string }]
    pdfSettings := none }

/-- C2 counterexample document: a single empty CSV record. -/
def fdC2 : ParsedFileData :=
  { headers := some []
    rows := [Row.record []]
    metadata := { totalRows := 1, type := .csv, sheetName := none, filename := "c2.csv" } }

/-- C2 counterexample template: two required fields, both absent from
the record, so the single row pushes two error entries. -/
def tC2 : TemplateMappingData :=
  { fileType := .csv, skipRows := 0
    columns := [{ name := "a", sourceColumn := "a", required := true, dataType := .string },
                { name := "b", sourceColumn := "b", required := true, dataType := .string }]
    pdfSettings := none }

/-- C3 failing input, document side: a free-text document whose
extracted text is `Total: abc`. -/
def fdC3 : ParsedFileData :=
  { headers := some [JsValue.str "content"]
    rows := [Row.record [("content", JsValue.str "Total: abc")]]
    metadata := { totalRows := 1, type := .pdf, sheetName := none, filename := "c3.pdf" } }

/-- C3 failing input, template side: a PDF template whose one `number`
field has the pattern `Total:\s*(\S+)`, so the captured `abc` reaches
`convertDataType` and makes it throw. -/
def tC3 : TemplateMappingData :=
  { fileType := .pdf, skipRows := 0
    columns := [{ name := "total", sourceColumn := "", required := false, dataType := .number }]
    pdfSettings := some { patterns := [("total", "Total:\\s*(\\S+)")] } }

/-- C4 counterexample document: a free-text (PDF) document. -/
def fdC4 : ParsedFileData :=
  { headers := some [JsValue.str "content"]
    rows := [Row.record [("content", JsValue.str "hello")]]
    metadata := { totalRows := 1, type := .pdf, sheetName := none, filename := "c4.pdf" } }

/-- C4 counterexample template: a delimited-text template, so the two
source kinds disagree. -/
def tC4 : TemplateMappingData :=
  { fileType := .csv, skipRows := 0
    columns := [{ name := "c", sourceColumn := "content", required := true, dataType := .string }]
    pdfSettings := none }

/-- C5 counterexample workbook: one sheet whose grid has a first row
`[H1, H2]` and one further row `[x, y]`. -/
def sheetsC5 : List (String × List (List JsValue)) :=
  [("Sheet1", [[JsValue.str "H1", JsValue.str "H2"],
               [JsValue.str "x", JsValue.str "y"]])]

/-- C6 counterexample document: the column `a` is present but holds
the empty string — a falsy value. -/
def fdC6 : ParsedFileData :=
  { headers := some [JsValue.str "a"]
    rows := [Row.record [("a", JsValue.str "")]]
    metadata := { totalRows := 1, type := .csv, sheetName := none, filename := "c6.csv" } }

/-- C6 counterexample template: the field reading column `a` is
required. -/
def tC6 : TemplateMappingData :=
  { fileType := .csv, skipRows := 0
    columns := [{ name := "f", sourceColumn := "a", required := true, dataType := .string }]
    pdfSettings := none }

/-- C8 counterexample document: the column `n` holds the string
`abc`. -/
def fdC8 : ParsedFileData :=
  { headers := some [JsValue.str "n"]
    rows := [Row.record [("n", JsValue.str "abc")]]
    metadata := { totalRows := 1, type := .csv, sheetName := none, filename := "c8.csv" } }

/-- C8 counterexample template: the field reading column `n` is typed
`number`, so coercing `abc` fails. -/
def tC8 : TemplateMappingData :=
  { fileType := .csv, skipRows := 0
    columns := [{ name := "amt", sourceColumn := "n", required := false, dataType := .number }]
    pdfSettings := none }

/-- C10 witness document: two CSV records. -/
def fdC10 : ParsedFileData :=
  { headers := some [JsValue.str "a"]
    rows := [Row.record [("a", JsValue.str "1")], Row.record [("a", JsValue.str "2")]]
    metadata := { totalRows := 2, type := .csv, sheetName := none, filename := "c10.csv" } }

/-- C10 witness template: `skipRows = 5` exceeds the two available
rows. -/
def tC10 : TemplateMappingData :=
  { fileType := .csv, skipRows := 5
    columns := [{ name := "f", sourceColumn := "a", required := true, dataType := .string }]
    pdfSettings := none }

/-- Specification view of one inner-loop iteration: the list of error
entries it pushes (zero, or one for a missing required value, or one
for a failed coercion — the two cannot fire together because a
null/undefined value always coerces to `null`). -/
def mappingErrs (dp : JsValue → Option String) (fdType : FileType)
    (i : ℕ) (sourceRow : Row) (mapping : ColumnMapping) : List RowError :=
  let value := mappingValue fdType sourceRow mapping
  (if mapping.required ∧ (value = .null ∨ value = .undef) then
    [⟨i + 1, msgRequired mapping.name⟩] else []) ++
  (match convertDataType dp value mapping.dataType with
   | .ok _ => []
   | .error m => [⟨i + 1, msgConvert mapping.name m⟩])

theorem processMapping_eq (dp : JsValue → Option String) (fdType : FileType)
    (i : ℕ) (sourceRow : Row) (acc : RowAcc) (mapping : ColumnMapping) :
    processMapping dp fdType i sourceRow acc mapping =
      ⟨(match convertDataType dp (mappingValue fdType sourceRow mapping) mapping.dataType with
        | .ok cv => setField acc.mappedRow mapping.name cv
        | .error _ => acc.mappedRow),
       acc.errors ++ mappingErrs dp fdType i sourceRow mapping,
       acc.hasError || !(mappingErrs dp fdType i sourceRow mapping).isEmpty⟩ := by
  unfold processMapping mappingErrs
  cases hconv : convertDataType dp (mappingValue fdType sourceRow mapping) mapping.dataType <;>
    by_cases hreq : mapping.required = true ∧
      (mappingValue fdType sourceRow mapping = JsValue.null ∨
        mappingValue fdType sourceRow mapping = JsValue.undef) <;>
      simp [hconv, hreq]

theorem foldl_pm_errors (dp : JsValue → Option String) (fdType : FileType)
    (i : ℕ) (sourceRow : Row) (cols : List ColumnMapping) (acc : RowAcc) :
    (cols.foldl (processMapping dp fdType i sourceRow) acc).errors =
      acc.errors ++ cols.flatMap (mappingErrs dp fdType i sourceRow) := by
  induction cols generalizing acc with
  | nil => simp
  | cons m rest ih =>
    simp only [List.foldl_cons, List.flatMap_cons]
    rw [ih, processMapping_eq]
    simp [List.append_assoc]

theorem isEmptyAppend {α : Type _} (l m : List α) :
    (l ++ m).isEmpty = (l.isEmpty && m.isEmpty) := by
  cases l <;> simp [List.isEmpty]

theorem foldl_pm_hasError (dp : JsValue → Option String) (fdType : FileType)
    (i : ℕ) (sourceRow : Row) (cols : List ColumnMapping) (acc : RowAcc) :
    (cols.foldl (processMapping dp fdType i sourceRow) acc).hasError =
      (acc.hasError || !(cols.flatMap (mappingErrs dp fdType i sourceRow)).isEmpty) := by
  induction cols generalizing acc with
  | nil => simp
  | cons m rest ih =>
    simp only [List.foldl_cons, List.flatMap_cons]
    rw [ih, processMapping_eq]
    simp [Bool.or_assoc, isEmptyAppend, Bool.not_and]

theorem processRow_errors (dp : JsValue → Option String) (fdType : FileType)
    (cols : List ColumnMapping) (i : ℕ) (sourceRow : Row) :
    (processRow dp fdType cols i sourceRow).errors =
      cols.flatMap (mappingErrs dp fdType i sourceRow) := by
  unfold processRow
  rw [foldl_pm_errors]
  rfl

theorem processRow_hasError (dp : JsValue → Option String) (fdType : FileType)
    (cols : List ColumnMapping) (i : ℕ) (sourceRow : Row) :
    (processRow dp fdType cols i sourceRow).hasError =
      !(processRow dp fdType cols i sourceRow).errors.isEmpty := by
  unfold processRow
  rw [foldl_pm_hasError, foldl_pm_errors]
  rfl

theorem tabular_fold (dp : JsValue → Option String) (fdType : FileType)
    (cols : List ColumnMapping) (ps : List (ℕ × Row))
    (st : List (List (String × JsValue)) × List RowError) :
    ps.foldl
      (fun (st : List (List (String × JsValue)) × List RowError) p =>
        let a := processRow dp fdType cols p.1 p.2
        (if a.hasError then st.1 else st.1 ++ [a.mappedRow], st.2 ++ a.errors))
      st =
    (st.1 ++ ps.filterMap
        (fun p =>
          if (processRow dp fdType cols p.1 p.2).errors = [] then
            some (processRow dp fdType cols p.1 p.2).mappedRow
          else none),
     st.2 ++ ps.flatMap (fun p => (processRow dp fdType cols p.1 p.2).errors)) := by
  induction ps generalizing st with
  | nil => simp
  | cons p rest ih =>
    simp only [List.foldl_cons, List.filterMap_cons, List.flatMap_cons]
    rw [ih]
    by_cases he : (processRow dp fdType cols p.1 p.2).errors = []
    · have hflag : (processRow dp fdType cols p.1 p.2).hasError = false := by
        rw [processRow_hasError, he]; rfl
      simp [hflag, he, List.append_assoc]
    · have hflag : (processRow dp fdType cols p.1 p.2).hasError = true := by
        rw [processRow_hasError]
        cases hE : (processRow dp fdType cols p.1 p.2).errors with
        | nil => exact absurd hE he
        | cons x xs => rfl
      simp [hflag, he, List.append_assoc]

/-- C1.  For every normalized document and mapping specification, the
extraction result (when the call returns rather than throws) is
all-or-nothing per row: on the tabular path `rows` consists of exactly
one record for each processed source row whose error list is empty, in
order, and `errors` is the row-major concatenation of the per-row
error lists; on the free-text path the single synthetic row yields
exactly one record iff no error was pushed. -/
theorem applyTemplate_all_or_nothing (dp : JsValue → Option String)
    (rx : String → String → Option (Option String))
    (fd : ParsedFileData) (t : TemplateMappingData) (res : MappingResult)
    (h : applyTemplate dp rx fd t = Except.ok res) :
    ((t.fileType = .pdf ∧ fd.metadata.type = .pdf) →
      res.rows.length = if res.errors = [] then 1 else 0) ∧
    (¬(t.fileType = .pdf ∧ fd.metadata.type = .pdf) →
      res.rows = ((enumRows 0 fd.rows).drop t.skipRows).filterMap
          (fun p =>
            if (processRow dp fd.metadata.type t.columns p.1 p.2).errors = [] then
              some (processRow dp fd.metadata.type t.columns p.1 p.2).mappedRow
            else none) ∧
      res.errors = ((enumRows 0 fd.rows).drop t.skipRows).flatMap
          (fun p => (processRow dp fd.metadata.type t.columns p.1 p.2).errors)) := by
  unfold applyTemplate at h
  by_cases hpath : t.fileType = .pdf ∧ fd.metadata.type = .pdf
  · rw [if_pos hpath] at h
    refine ⟨fun _ => ?_, fun hc => absurd hpath hc⟩
    cases hpdf : applyPdfTemplate dp rx fd t with
    | error e => rw [hpdf] at h; exact absurd h (by simp)
    | ok r =>
      rw [hpdf] at h
      injection h with h
      subst h
      unfold applyPdfTemplate at hpdf
      cases hfold : List.foldlM
          (pdfStep dp rx t
            (jsOr (rowIndexStr (fd.rows.headD (.record [])) "content") (.str "")))
          ([], []) t.columns with
      | error e =>
        rw [hfold] at hpdf
        exact absurd hpdf (by simp)
      | ok st =>
        rw [hfold] at hpdf
        injection hpdf with hpdf
        subst hpdf
        cases hst : st.2 with
        | nil => simp [hst]
        | cons x xs => simp [hst]
  · rw [if_neg hpath] at h
    injection h with h
    subst h
    refine ⟨fun hc => absurd hc hpath, fun _ => ?_⟩
    simp only [applyTabular]
    rw [tabular_fold]
    exact ⟨by simp, by simp⟩

/-- Witness for C1 at a concrete input: a one-row CSV document whose
single required field is present maps to exactly one record. -/
theorem applyTemplate_all_or_nothing_witness :
    ((tW.fileType = .pdf ∧ fdW.metadata.type = .pdf) →
      (applyTabular dp0 fdW tW).rows.length =
        if (applyTabular dp0 fdW tW).errors = [] then 1 else 0) ∧
    (¬(tW.fileType = .pdf ∧ fdW.metadata.type = .pdf) →
      (applyTabular dp0 fdW tW).rows =
        ((enumRows 0 fdW.rows).drop tW.skipRows).filterMap
          (fun p =>
            if (processRow dp0 fdW.metadata.type tW.columns p.1 p.2).errors = [] then
              some (processRow dp0 fdW.metadata.type tW.columns p.1 p.2).mappedRow
            else none) ∧
      (applyTabular dp0 fdW tW).errors =
        ((enumRows 0 fdW.rows).drop tW.skipRows).flatMap
          (fun p => (processRow dp0 fdW.metadata.type tW.columns p.1 p.2).errors)) :=
  applyTemplate_all_or_nothing dp0 rx0 fdW tW (applyTabular dp0 fdW tW) rfl

theorem length_filterMap_add_countP {α β : Type _} (l : List α)
    (P : α → Prop) [DecidablePred P] (f : α → β) :
    (l.filterMap (fun a => if P a then some (f a) else none)).length
      + l.countP (fun a => decide (¬ P a)) = l.length := by
  induction l with
  | nil => simp
  | cons a rest ih =>
    by_cases hP : P a
    · have h1 : (fun a => if P a then some (f a) else none) a = some (f a) := by
        simp [hP]
      have h2 : (if decide (¬ P a) = true then (1 : ℕ) else 0) = 0 := by simp [hP]
      simp only [List.filterMap_cons, h1, List.countP_cons, h2, List.length_cons]
      omega
    · have h1 : (fun a => if P a then some (f a) else none) a = none := by
        simp [hP]
      have h2 : (if decide (¬ P a) = true then (1 : ℕ) else 0) = 1 := by simp [hP]
      simp only [List.filterMap_cons, h1, List.countP_cons, h2, List.length_cons]
      omega

theorem enumRows_length (n : ℕ) (l : List Row) :
    (enumRows n l).length = l.length := by
  induction l generalizing n with
  | nil => rfl
  | cons r rs ih => simp [enumRows, ih]

/-- C2 counterexample: a single CSV row missing both of its two
required fields pushes two error entries, so
`mappedRows + errorRows = 0 + 2 ≠ 1 = totalRows`. -/
theorem totals_equation_counterexample :
    applyTemplate dp0 rx0 fdC2 tC2 = Except.ok (applyTabular dp0 fdC2 tC2) ∧
    ¬(((applyTabular dp0 fdC2 tC2).mappedRows : ℤ)
        + ((applyTabular dp0 fdC2 tC2).errorRows : ℤ)
        = (applyTabular dp0 fdC2 tC2).totalRows) :=
  ⟨rfl, by decide⟩

/-- C2 amended.  `mappedRows` and `errorRows` are the lengths of the
returned `rows` and `errors`; on the free-text path `totalRows = 1`;
on the tabular path with `skipRows ≤ rows.length`, `mappedRows` plus
the number of processed rows with at least one error equals
`totalRows`.  (`errorRows` itself counts error entries, so the claimed
`mappedRows + errorRows = totalRows` holds only when every failing row
pushes exactly one entry.) -/
theorem totals_amended (dp : JsValue → Option String)
    (rx : String → String → Option (Option String))
    (fd : ParsedFileData) (t : TemplateMappingData) (res : MappingResult)
    (h : applyTemplate dp rx fd t = Except.ok res) :
    res.mappedRows = res.rows.length ∧
    res.errorRows = res.errors.length ∧
    ((t.fileType = .pdf ∧ fd.metadata.type = .pdf) → res.totalRows = 1) ∧
    (¬(t.fileType = .pdf ∧ fd.metadata.type = .pdf) →
      t.skipRows ≤ fd.rows.length →
      (res.mappedRows : ℤ) +
        (((enumRows 0 fd.rows).drop t.skipRows).countP
          (fun p => decide (¬ (processRow dp fd.metadata.type t.columns p.1 p.2).errors = [])) : ℤ)
        = res.totalRows) := by
  unfold applyTemplate at h
  by_cases hpath : t.fileType = .pdf ∧ fd.metadata.type = .pdf
  · rw [if_pos hpath] at h
    cases hpdf : applyPdfTemplate dp rx fd t with
    | error e => rw [hpdf] at h; exact absurd h (by simp)
    | ok r =>
      rw [hpdf] at h
      injection h with h
      subst h
      unfold applyPdfTemplate at hpdf
      cases hfold : List.foldlM
          (pdfStep dp rx t
            (jsOr (rowIndexStr (fd.rows.headD (.record [])) "content") (.str "")))
          ([], []) t.columns with
      | error e => rw [hfold] at hpdf; exact absurd hpdf (by simp)
      | ok st =>
        rw [hfold] at hpdf
        injection hpdf with hpdf
        subst hpdf
        refine ⟨?_, rfl, fun _ => rfl, fun hc => absurd hpath hc⟩
        cases hst : st.2 with
        | nil => simp [hst]
        | cons x xs => simp [hst]
  · rw [if_neg hpath] at h
    injection h with h
    subst h
    refine ⟨?_, rfl, fun hc => absurd hc hpath, fun _ hskip => ?_⟩
    · simp only [applyTabular]
    · simp only [applyTabular]
      rw [tabular_fold]
      have hcount := length_filterMap_add_countP
        ((enumRows 0 fd.rows).drop t.skipRows)
        (fun p => (processRow dp fd.metadata.type t.columns p.1 p.2).errors = [])
        (fun p => (processRow dp fd.metadata.type t.columns p.1 p.2).mappedRow)
      have hlen : ((enumRows 0 fd.rows).drop t.skipRows).length
          = fd.rows.length - t.skipRows := by
        rw [List.length_drop, enumRows_length]
      simp only [List.nil_append] at *
      omega

/-- Witness for C2's amended statement at the same concrete input as
C1's witness. -/
theorem totals_amended_witness :
    (applyTabular dp0 fdW tW).mappedRows = (applyTabular dp0 fdW tW).rows.length ∧
    (applyTabular dp0 fdW tW).errorRows = (applyTabular dp0 fdW tW).errors.length ∧
    ((tW.fileType = .pdf ∧ fdW.metadata.type = .pdf) →
      (applyTabular dp0 fdW tW).totalRows = 1) ∧
    (¬(tW.fileType = .pdf ∧ fdW.metadata.type = .pdf) →
      tW.skipRows ≤ fdW.rows.length →
      ((applyTabular dp0 fdW tW).mappedRows : ℤ) +
        (((enumRows 0 fdW.rows).drop tW.skipRows).countP
          (fun p => decide (¬ (processRow dp0 fdW.metadata.type tW.columns p.1 p.2).errors = [])) : ℤ)
        = (applyTabular dp0 fdW tW).totalRows) :=
  totals_amended dp0 rx0 fdW tW (applyTabular dp0 fdW tW) rfl

/-- C3 (code bug): on the free-text path the `convertDataType` call is
not wrapped in `try`/`catch`, so a type-coercion failure aborts the
whole `applyTemplate` call instead of being collected into `rowErrors`.
At the failing input — text `Total: abc`, one `number` field whose
pattern captures `abc` — the call returns the re-thrown error. -/
theorem pdf_coercion_failure_throws :
    applyTemplate dp0 rxC3 fdC3 tC3 =
      Except.error ("템플릿 적용 오류: " ++ msgNotNumber (JsValue.str "abc")) := rfl

/-- C4 counterexample: a free-text document run with a delimited-text
template — the two source kinds disagree — is not rejected; the call
silently takes the tabular path and fully maps the row. -/
theorem mismatch_counterexample :
    fdC4.metadata.type ≠ tC4.fileType ∧
    applyTemplate dp0 rx0 fdC4 tC4 = Except.ok (applyTabular dp0 fdC4 tC4) ∧
    (applyTabular dp0 fdC4 tC4).errors = [] ∧
    (applyTabular dp0 fdC4 tC4).rows = [[("c", JsValue.str "hello")]] :=
  ⟨by decide, rfl, by decide, by decide⟩

/-- C4 amended: `applyTemplate` performs no source-kind compatibility
check.  Whenever the template's kind and the document's kind disagree,
the free-text branch (which requires both to be `pdf`) is skipped and
the tabular mapping is silently applied to the document as-is — a
normal result, never an `IncompatibleTemplate` error. -/
theorem no_mismatch_check (dp : JsValue → Option String)
    (rx : String → String → Option (Option String))
    (fd : ParsedFileData) (t : TemplateMappingData)
    (hm : fd.metadata.type ≠ t.fileType) :
    applyTemplate dp rx fd t = Except.ok (applyTabular dp fd t) := by
  unfold applyTemplate
  rw [if_neg (fun hp => hm (hp.2.trans hp.1.symm))]

/-- Witness for C4's amended statement at the concrete mismatched
pair. -/
theorem no_mismatch_check_witness :
    applyTemplate dp0 rx0 fdC4 tC4 = Except.ok (applyTabular dp0 fdC4 tC4) :=
  no_mismatch_check dp0 rx0 fdC4 tC4 (by decide)

theorem enumRows_drop_nil (l : List Row) (k : ℕ) (h : l.length ≤ k) :
    (enumRows 0 l).drop k = [] := by
  apply List.drop_eq_nil_of_le
  rw [enumRows_length]
  exact h

/-- C10.  When `skipRows` exceeds the number of document rows, the
tabular path returns normally with no mapped rows and no errors, but
`totalRows = rows.length - skipRows` is negative rather than zero. -/
theorem skipRows_exceeding_gives_negative_total (dp : JsValue → Option String)
    (rx : String → String → Option (Option String))
    (fd : ParsedFileData) (t : TemplateMappingData)
    (h1 : ¬(t.fileType = .pdf ∧ fd.metadata.type = .pdf))
    (h2 : fd.rows.length < t.skipRows) :
    applyTemplate dp rx fd t = Except.ok (applyTabular dp fd t) ∧
    (applyTabular dp fd t).rows = [] ∧
    (applyTabular dp fd t).errors = [] ∧
    (applyTabular dp fd t).mappedRows = 0 ∧
    (applyTabular dp fd t).errorRows = 0 ∧
    (applyTabular dp fd t).totalRows = (fd.rows.length : ℤ) - (t.skipRows : ℤ) ∧
    (applyTabular dp fd t).totalRows < 0 := by
  have hd : (enumRows 0 fd.rows).drop t.skipRows = [] :=
    enumRows_drop_nil fd.rows t.skipRows (Nat.le_of_lt h2)
  have hres : applyTabular dp fd t =
      { headers := t.columns.map (fun col => col.name)
        rows := []
        totalRows := (fd.rows.length : ℤ) - (t.skipRows : ℤ)
        mappedRows := 0
        errorRows := 0
        errors := [] } := by
    simp [applyTabular, hd]
  constructor
  · unfold applyTemplate
    rw [if_neg h1]
  · rw [hres]
    refine ⟨rfl, rfl, rfl, rfl, rfl, ?_⟩
    show (fd.rows.length : ℤ) - (t.skipRows : ℤ) < 0
    omega

/-- Witness for C10 at a concrete input: two rows, `skipRows = 5`. -/
theorem skipRows_exceeding_witness :
    applyTemplate dp0 rx0 fdC10 tC10 = Except.ok (applyTabular dp0 fdC10 tC10) ∧
    (applyTabular dp0 fdC10 tC10).rows = [] ∧
    (applyTabular dp0 fdC10 tC10).errors = [] ∧
    (applyTabular dp0 fdC10 tC10).mappedRows = 0 ∧
    (applyTabular dp0 fdC10 tC10).errorRows = 0 ∧
    (applyTabular dp0 fdC10 tC10).totalRows = (fdC10.rows.length : ℤ) - (tC10.skipRows : ℤ) ∧
    (applyTabular dp0 fdC10 tC10).totalRows < 0 :=
  skipRows_exceeding_gives_negative_total dp0 rx0 fdC10 tC10 (by decide) (by decide)

/-- C5 counterexample: on a grid with first row `[H1, H2]` and second
row `[x, y]`, the parser returns only one row (the grid's first row is
consumed as headers) and the headers are that first row, not column
letters. -/
theorem parseExcel_counterexample :
    (parseExcelFile sheetsC5 "c5.xlsx").rows = [Row.cells [JsValue.str "x", JsValue.str "y"]] ∧
    (parseExcelFile sheetsC5 "c5.xlsx").rows.length ≠ 2 ∧
    (parseExcelFile sheetsC5 "c5.xlsx").headers = some [JsValue.str "H1", JsValue.str "H2"] ∧
    (parseExcelFile sheetsC5 "c5.xlsx").headers ≠ some [JsValue.str "A", JsValue.str "B"] :=
  ⟨by decide, by decide, by decide, by decide⟩

/-- C5 amended: the parser reads the first sheet only (appending
further sheets changes nothing), does assume a header row — the grid's
first row becomes `headers` and only the remaining rows become the
document's rows — and derives no column-letter headers. -/
theorem parseExcel_amended (s0 : String × List (List JsValue))
    (rest : List (String × List (List JsValue))) (fn : String) :
    parseExcelFile (s0 :: rest) fn = parseExcelFile [s0] fn ∧
    (parseExcelFile (s0 :: rest) fn).headers = s0.2.head? ∧
    (parseExcelFile (s0 :: rest) fn).rows = (s0.2.drop 1).map Row.cells ∧
    (parseExcelFile (s0 :: rest) fn).metadata.totalRows = s0.2.length - 1 := by
  refine ⟨rfl, rfl, rfl, ?_⟩
  simp [parseExcelFile]

/-- C6 counterexample: the column `a` is present in the record and
holds the empty string, yet the row fails the required-field check and
is excluded: the `|| null` in the CSV lookup turns the present falsy
value into `null`. -/
theorem falsy_value_counterexample :
    ([("a", JsValue.str "")].lookup "a" = some (JsValue.str "")) ∧
    applyTemplate dp0 rx0 fdC6 tC6 = Except.ok (applyTabular dp0 fdC6 tC6) ∧
    (applyTabular dp0 fdC6 tC6).errors = [⟨1, msgRequired "f"⟩] ∧
    (applyTabular dp0 fdC6 tC6).rows = [] :=
  ⟨by decide, rfl, by decide, by decide⟩

/-- C6 amended: the delimited-text resolution is
`sourceRow[name] || null`, so any falsy resolved value — including a
present `""`, `0` or `false` — becomes `null`, and for a required
field that pushes the required-field error and excludes the row; the
value is kept as-is exactly when it is truthy. -/
theorem csv_falsy_resolution (dp : JsValue → Option String) (i : ℕ)
    (fs : List (String × JsValue)) (k nm : String) (dt : DataType)
    (h : truthyJs ((fs.lookup k).getD .undef) = false) :
    mappingValue .csv (Row.record fs) ⟨nm, k, true, dt⟩ = .null ∧
    (processRow dp .csv [⟨nm, k, true, dt⟩] i (Row.record fs)).errors
      = [⟨i + 1, msgRequired nm⟩] := by
  have hv : mappingValue .csv (Row.record fs) ⟨nm, k, true, dt⟩ = .null := by
    simp [mappingValue, jsOr, rowIndexStr, h]
  refine ⟨hv, ?_⟩
  rw [processRow_errors]
  simp [mappingErrs, hv, convertDataType]

/-- Witness for C6's amended statement: the key `a` is present with
value `""`. -/
theorem csv_falsy_resolution_witness :
    mappingValue .csv (Row.record [("a", JsValue.str "")])
        ⟨"f", "a", true, .string⟩ = .null ∧
    (processRow dp0 .csv [⟨"f", "a", true, .string⟩] 0
        (Row.record [("a", JsValue.str "")])).errors
      = [⟨1, msgRequired "f"⟩] :=
  csv_falsy_resolution dp0 0 [("a", JsValue.str "")] "a" "f" .string (by decide)

theorem strContains_parts (hay sub : String) (a b : List Char)
    (h : hay.data = a ++ (sub.data ++ b)) : strContains hay sub := by
  exact ⟨a, b, by rw [List.append_assoc]; exact h.symm⟩

/-- C8 counterexample: for the delimited-text document whose `number`
field holds `"abc"`, the row is excluded and the single error entry
contains `"abc"` — but not the substring `"number"`: the target type is
named only in Korean (`숫자`). -/
theorem coercion_message_counterexample :
    applyTemplate dp0 rx0 fdC8 tC8 = Except.ok (applyTabular dp0 fdC8 tC8) ∧
    (applyTabular dp0 fdC8 tC8).rows = [] ∧
    (applyTabular dp0 fdC8 tC8).errors
      = [⟨1, msgConvert "amt" (msgNotNumber (JsValue.str "abc"))⟩] ∧
    strContains (msgConvert "amt" (msgNotNumber (JsValue.str "abc"))) "abc" ∧
    ¬ strContains (msgConvert "amt" (msgNotNumber (JsValue.str "abc"))) "number" :=
  ⟨rfl, by decide, by decide, by decide, by decide⟩

/-- C8 amended: every coercion-failure message contains the
stringified raw value and names the target type — in Korean (`숫자`
for `number`, `날짜` for `date`), not by the English type name. -/
theorem coercion_message_amended (dp : JsValue → Option String)
    (v : JsValue) (dt : DataType) (e : String)
    (h : convertDataType dp v dt = Except.error e) :
    strContains e (jsToString v) ∧ strContains e (koreanTypeName dt) := by
  have hmain : e = msgNotNumber v ∧ dt = .number ∨ e = msgNotDate v ∧ dt = .date := by
    cases v with
    | null => exact absurd h (by simp [convertDataType])
    | undef => exact absurd h (by simp [convertDataType])
    | str s =>
      cases dt with
      | string => exact absurd h (by simp [convertDataType])
      | number =>
        cases hn : jsNumber (JsValue.str s) with
        | some q => rw [convertDataType.eq_def] at h; simp [hn] at h
        | none =>
          rw [convertDataType.eq_def] at h
          simp [hn] at h
          exact .inl ⟨h.symm, rfl⟩
      | date =>
        cases hd : dp (JsValue.str s) with
        | some iso => rw [convertDataType.eq_def] at h; simp [hd] at h
        | none =>
          rw [convertDataType.eq_def] at h
          simp [hd] at h
          exact .inr ⟨h.symm, rfl⟩
    | num q =>
      cases dt with
      | string => exact absurd h (by simp [convertDataType])
      | number =>
        cases hn : jsNumber (JsValue.num q) with
        | some x => rw [convertDataType.eq_def] at h; simp [hn] at h
        | none => exact absurd hn (by simp [jsNumber])
      | date =>
        cases hd : dp (JsValue.num q) with
        | some iso => rw [convertDataType.eq_def] at h; simp [hd] at h
        | none =>
          rw [convertDataType.eq_def] at h
          simp [hd] at h
          exact .inr ⟨h.symm, rfl⟩
    | bool b =>
      cases dt with
      | string => exact absurd h (by simp [convertDataType])
      | number =>
        cases hn : jsNumber (JsValue.bool b) with
        | some x => rw [convertDataType.eq_def] at h; simp [hn] at h
        | none => exact absurd hn (by simp [jsNumber])
      | date =>
        cases hd : dp (JsValue.bool b) with
        | some iso => rw [convertDataType.eq_def] at h; simp [hd] at h
        | none =>
          rw [convertDataType.eq_def] at h
          simp [hd] at h
          exact .inr ⟨h.symm, rfl⟩
  rcases hmain with ⟨he, hdt⟩ | ⟨he, hdt⟩
  · subst he; subst hdt
    constructor
    · exact strContains_parts _ _ apos.data
        (apos.data ++ ("은(는) 유효한 숫자가 아닙니다.").data)
        (by simp [msgNotNumber, List.append_assoc])
    · exact strContains_parts _ _
        (apos.data ++ (jsToString v).data ++ apos.data ++ ("은(는) 유효한 ").data)
        (("가 아닙니다.").data)
        (by simp [msgNotNumber, koreanTypeName, List.append_assoc])
  · subst he; subst hdt
    constructor
    · exact strContains_parts _ _ apos.data
        (apos.data ++ ("은(는) 유효한 날짜가 아닙니다.").data)
        (by simp [msgNotDate, List.append_assoc])
    · exact strContains_parts _ _
        (apos.data ++ (jsToString v).data ++ apos.data ++ ("은(는) 유효한 ").data)
        (("가 아닙니다.").data)
        (by simp [msgNotDate, koreanTypeName, List.append_assoc])

/-- Witness for C8's amended statement at the concrete failing
coercion of C8's scenario. -/
theorem coercion_message_amended_witness :
    strContains (msgNotNumber (JsValue.str "abc")) (jsToString (JsValue.str "abc")) ∧
    strContains (msgNotNumber (JsValue.str "abc")) (koreanTypeName .number) :=
  coercion_message_amended dp0 (JsValue.str "abc") .number
    (msgNotNumber (JsValue.str "abc")) rfl

/-- C9 counterexample: exporting zero records writes an empty CSV —
zero lines, not a header-only file — because `json_to_sheet` derives
the header from the records' keys and has none to derive. -/
theorem exportCsv_zero_records_counterexample :
    exportToCsv [] = [] ∧ (exportToCsv []).length ≠ 1 :=
  ⟨rfl, by decide⟩

/-- C9 amended: spreadsheet export always writes exactly one sheet;
delimited export emits one header line (the first-seen union of record
keys) followed by one line per record whenever at least one record is
present; with zero records the CSV is empty. -/
theorem export_amended :
    (∀ data, (exportToExcel data).sheets.length = 1) ∧
    (∀ (r : List (String × JsValue)) (rest : List (List (String × JsValue))),
      (exportToCsv (r :: rest)).length = rest.length + 2 ∧
      (exportToCsv (r :: rest)).head? = some (sheetHeaders (r :: rest))) ∧
    exportToCsv [] = [] := by
  refine ⟨fun data => rfl, fun r rest => ?_, rfl⟩
  have hcond : ¬((jsonToSheet (r :: rest)).header = [] ∧
      (jsonToSheet (r :: rest)).dataRows = []) := by
    simp [jsonToSheet]
  unfold exportToCsv csvLines
  rw [if_neg hcond]
  refine ⟨?_, ?_⟩
  · simp [jsonToSheet]
  · simp [jsonToSheet]

theorem charOfNat_toNat_small : ∀ d, d < 27 → (Char.ofNat (64 + d)).toNat = 64 + d := by
  decide

theorem colVal_nil : colVal [] = 0 := rfl

theorem colValAux (l : List Char) (a : ℕ) :
    l.foldl (fun r c => r * 26 + (c.toNat - 64)) a = a * 26 ^ l.length + colVal l := by
  induction l generalizing a with
  | nil => simp [colVal]
  | cons c l ih =>
    show l.foldl _ (a * 26 + (c.toNat - 64)) = _
    rw [ih]
    have h2 : colVal (c :: l) = (c.toNat - 64) * 26 ^ l.length + colVal l := by
      show l.foldl _ (0 * 26 + (c.toNat - 64)) = _
      rw [ih]
      ring
    rw [h2, List.length_cons]
    ring

theorem colVal_cons (c : Char) (l : List Char) :
    colVal (c :: l) = (c.toNat - 64) * 26 ^ l.length + colVal l := by
  show l.foldl _ (0 * 26 + (c.toNat - 64)) = _
  rw [colValAux]
  ring

theorem colVal_snoc (l : List Char) (c : Char) :
    colVal (l ++ [c]) = colVal l * 26 + (c.toNat - 64) := by
  unfold colVal
  rw [List.foldl_append]
  rfl

theorem colLo_eq (k : ℕ) : 25 * colLo k + 1 = 26 ^ k := by
  induction k with
  | zero => rfl
  | succ k ih =>
    rw [colLo, pow_succ]
    omega

theorem colLo_mono {k m : ℕ} (h : k ≤ m) : colLo k ≤ colLo m := by
  have h1 := colLo_eq k
  have h2 := colLo_eq m
  have h3 : (26 : ℕ) ^ k ≤ 26 ^ m := Nat.pow_le_pow_right (by norm_num) h
  omega

theorem colVal_bounds (l : List Char) (h : ∀ c ∈ l, 65 ≤ c.toNat ∧ c.toNat ≤ 90) :
    colLo l.length ≤ colVal l ∧ colVal l ≤ 26 * colLo l.length := by
  induction l with
  | nil => exact ⟨Nat.le_refl _, Nat.le_refl _⟩
  | cons c l ih =>
    have hc := h c (by simp)
    have ihl := ih (fun x hx => h x (by simp [hx]))
    have h26 := colLo_eq l.length
    have hge : 26 ^ l.length ≤ (c.toNat - 64) * 26 ^ l.length :=
      Nat.le_mul_of_pos_left _ (by omega)
    have hle : (c.toNat - 64) * 26 ^ l.length ≤ 26 * 26 ^ l.length := by
      have := Nat.mul_le_mul_right (26 ^ l.length) (show c.toNat - 64 ≤ 26 by omega)
      exact this
    rw [colVal_cons, List.length_cons, colLo]
    omega

theorem colRep_spec : ∀ m, 1 ≤ m →
    colVal (colRep m) = m ∧ colRep m ≠ [] ∧
      ∀ c ∈ colRep m, 65 ≤ c.toNat ∧ c.toNat ≤ 90 := by
  intro m
  induction m using Nat.strong_induction_on with
  | _ m ih =>
    intro hm
    rw [colRep]
    rw [if_neg (by omega : ¬ m = 0)]
    by_cases h26 : m ≤ 26
    · rw [dif_pos h26]
      have ht := charOfNat_toNat_small m (by omega)
      refine ⟨?_, by simp, ?_⟩
      · rw [show colVal [Char.ofNat (64 + m)] = (Char.ofNat (64 + m)).toNat - 64 by
          rw [show [Char.ofNat (64 + m)] = [] ++ [Char.ofNat (64 + m)] by simp,
            colVal_snoc, colVal_nil]
          omega]
        omega
      · intro c hc
        rw [List.mem_singleton] at hc
        subst hc
        omega
    · rw [dif_neg h26]
      have hq1 : 1 ≤ (m - 1) / 26 := by omega
      have hqlt : (m - 1) / 26 < m := by omega
      obtain ⟨ihv, ihne, ihmem⟩ := ih _ hqlt hq1
      have hr : (m - 1) % 26 < 26 := Nat.mod_lt _ (by norm_num)
      have ht := charOfNat_toNat_small ((m - 1) % 26 + 1) (by omega)
      refine ⟨?_, by simp, ?_⟩
      · rw [colVal_snoc, ihv, ht]
        omega
      · intro c hc
        rcases List.mem_append.mp hc with hin | hin
        · exact ihmem c hin
        · rw [List.mem_singleton] at hin
          subst hin
          omega

theorem colRep_colVal : ∀ l : List Char, l ≠ [] →
    (∀ c ∈ l, 65 ≤ c.toNat ∧ c.toNat ≤ 90) → colRep (colVal l) = l := by
  intro l
  induction l using List.reverseRecOn with
  | nil => intro h; exact absurd rfl h
  | append_singleton l c ih =>
    intro _ hmem
    have hc := hmem c (by simp)
    have hd1 : 1 ≤ c.toNat - 64 := by omega
    have hd2 : c.toNat - 64 ≤ 26 := by omega
    rw [colVal_snoc]
    by_cases hl : l = []
    · subst hl
      rw [colVal_nil, Nat.zero_mul, Nat.zero_add]
      rw [colRep]
      rw [if_neg (by omega : ¬ c.toNat - 64 = 0), dif_pos hd2]
      have : 64 + (c.toNat - 64) = c.toNat := by omega
      rw [this, Char.ofNat_toNat]
      simp
    · have hmem' : ∀ x ∈ l, 65 ≤ x.toNat ∧ x.toNat ≤ 90 :=
        fun x hx => hmem x (by simp [hx])
      have ihl := ih hl hmem'
      have hv1 : 1 ≤ colVal l := by
        have hb := (colVal_bounds l hmem').1
        have hlen : 1 ≤ l.length := List.length_pos.mpr hl
        have hlo := colLo_mono hlen
        have : colLo 1 = 1 := rfl
        omega
      rw [colRep]
      rw [if_neg (by omega : ¬ colVal l * 26 + (c.toNat - 64) = 0),
        dif_neg (by omega : ¬ colVal l * 26 + (c.toNat - 64) ≤ 26)]
      have hq : (colVal l * 26 + (c.toNat - 64) - 1) / 26 = colVal l := by omega
      have hrr : (colVal l * 26 + (c.toNat - 64) - 1) % 26 = c.toNat - 64 - 1 := by omega
      rw [hq, hrr, ihl]
      have : 64 + (c.toNat - 64 - 1 + 1) = c.toNat := by omega
      rw [this, Char.ofNat_toNat]

theorem colVal_lt_of_length_lt (l m : List Char)
    (hvl : ∀ c ∈ l, 65 ≤ c.toNat ∧ c.toNat ≤ 90)
    (hvm : ∀ c ∈ m, 65 ≤ c.toNat ∧ c.toNat ≤ 90)
    (h : l.length < m.length) : colVal l < colVal m := by
  have b1 := (colVal_bounds l hvl).2
  have b2 := (colVal_bounds m hvm).1
  have h26 := colLo_eq l.length
  have hmono := colLo_mono (show l.length + 1 ≤ m.length from h)
  have hstep : colLo (l.length + 1) = 26 * colLo l.length + 1 := rfl
  omega

theorem colVal_lt_of_lexLt : ∀ (l m : List Char), l.length = m.length →
    (∀ c ∈ l, 65 ≤ c.toNat ∧ c.toNat ≤ 90) →
    (∀ c ∈ m, 65 ≤ c.toNat ∧ c.toNat ≤ 90) →
    lexLt l m → colVal l < colVal m := by
  intro l
  induction l with
  | nil =>
    intro m hlen _ _ hlex
    cases m with
    | nil => exact (hlex : False).elim
    | cons b bs => simp at hlen
  | cons a as ih =>
    intro m hlen hvl hvm hlex
    cases m with
    | nil => exact (hlex : False).elim
    | cons b bs =>
      have hlen' : as.length = bs.length := by simpa using hlen
      have ha := hvl a (by simp)
      have hb := hvm b (by simp)
      rw [colVal_cons, colVal_cons, hlen']
      rcases hlex with hab | ⟨hab, htail⟩
      · have hboundas := (colVal_bounds as (fun c hc => hvl c (by simp [hc]))).2
        have hboundbs := (colVal_bounds bs (fun c hc => hvm c (by simp [hc]))).1
        have h26 := colLo_eq bs.length
        have hd : (a.toNat - 64) + 1 ≤ b.toNat - 64 := by omega
        have h1 : (a.toNat - 64) * 26 ^ bs.length + 26 ^ bs.length ≤
            (b.toNat - 64) * 26 ^ bs.length := by
          have h2 := Nat.mul_le_mul_right (26 ^ bs.length) hd
          rw [Nat.add_mul, Nat.one_mul] at h2
          exact h2
        rw [hlen'] at hboundas
        omega
      · subst hab
        exact Nat.add_lt_add_left
          (ih bs hlen' (fun c hc => hvl c (by simp [hc]))
            (fun c hc => hvm c (by simp [hc])) htail) _

theorem foldl_int_nat (l : List Char) (h : ∀ c ∈ l, 64 ≤ c.toNat) : ∀ a : ℕ,
    l.foldl (fun r c => r * 26 + ((c.toNat : ℤ) - 64)) (a : ℤ)
      = ((l.foldl (fun r c => r * 26 + (c.toNat - 64)) a : ℕ) : ℤ) := by
  induction l with
  | nil => intro a; rfl
  | cons c cs ih =>
    intro a
    have hc := h c (by simp)
    have hstep : (a : ℤ) * 26 + ((c.toNat : ℤ) - 64)
        = ((a * 26 + (c.toNat - 64) : ℕ) : ℤ) := by
      push_cast [Nat.cast_sub hc]
      ring
    simp only [List.foldl_cons]
    rw [hstep, ih (fun x hx => h x (by simp [hx]))]

theorem excelColToIndex_eq_colVal (s : String) (hv : validCol s) :
    excelColToIndex s = (colVal s.data : ℤ) - 1 := by
  unfold excelColToIndex colVal
  have h := foldl_int_nat s.data (fun c hc => by have := hv.2 c hc; omega) 0
  rw [Nat.cast_zero] at h
  rw [h]

theorem colVal_pos (s : String) (hv : validCol s) : 1 ≤ colVal s.data := by
  have hb := (colVal_bounds s.data hv.2).1
  have hlen : 1 ≤ s.data.length := List.length_pos.mpr hv.1
  have hlo := colLo_mono hlen
  have h1 : colLo 1 = 1 := rfl
  omega

/-- C7.  `excelColToIndex` realizes the documented base-26 convention
(`A=0`, `Z=25`, `AA=26`), is injective and surjective from the
non-empty uppercase-letter strings onto `{0,1,2,…}`, and
`index(letters) + 1` strictly increases with Excel column order
(shorter strings first, alphabetical within a length). -/
theorem excelColToIndex_bijection :
    excelColToIndex "A" = 0 ∧ excelColToIndex "Z" = 25 ∧ excelColToIndex "AA" = 26 ∧
    (∀ s t : String, validCol s → validCol t →
      excelColToIndex s = excelColToIndex t → s = t) ∧
    (∀ n : ℕ, ∃ s : String, validCol s ∧ excelColToIndex s = (n : ℤ)) ∧
    (∀ s t : String, validCol s → validCol t → colOrder s t →
      excelColToIndex s + 1 < excelColToIndex t + 1) := by
  refine ⟨by decide, by decide, by decide, ?_, ?_, ?_⟩
  · intro s t hs ht heq
    rw [excelColToIndex_eq_colVal s hs, excelColToIndex_eq_colVal t ht] at heq
    have hv : colVal s.data = colVal t.data := by omega
    have hd : s.data = t.data := by
      rw [← colRep_colVal s.data hs.1 hs.2, ← colRep_colVal t.data ht.1 ht.2, hv]
    exact String.ext hd
  · intro n
    obtain ⟨hval, hne, hmem⟩ := colRep_spec (n + 1) (by omega)
    refine ⟨⟨colRep (n + 1)⟩, ⟨hne, hmem⟩, ?_⟩
    rw [excelColToIndex_eq_colVal ⟨colRep (n + 1)⟩ ⟨hne, hmem⟩]
    show (colVal (colRep (n + 1)) : ℤ) - 1 = (n : ℤ)
    rw [hval]
    push_cast
    ring
  · intro s t hs ht hord
    rw [excelColToIndex_eq_colVal s hs, excelColToIndex_eq_colVal t ht]
    have hlt : colVal s.data < colVal t.data := by
      rcases hord with hlen | ⟨hlen, hlex⟩
      · exact colVal_lt_of_length_lt s.data t.data hs.2 ht.2 hlen
      · exact colVal_lt_of_lexLt s.data t.data hlen hs.2 ht.2 hlex
    omega
